import Mathlib

/-!
# Verification of the mariadb_exporter collection pipeline

A shallow embedding, in Lean 4, of the pure algorithmic cores of the
`mariadb_exporter` collectors, translated from the Rust sources:

* `src/collectors/util.rs` — version normalization, excluded-database list;
* `src/collectors/exporter/scraper.rs` — scrape-accounting records and the
  `ScrapeTimer` success / error / drop paths;
* `src/collectors/default/status.rs` — the delta-counter algorithm
  (`set_counter_from_status`);
* `src/collectors/default/version.rs` — `update_version_metrics`;
* `src/collectors/innodb/status.rs` — the `SHOW ENGINE INNODB STATUS`
  line scanner (`StatusParser::parse`);
* `src/collectors/query_response_time/collector.rs` — the histogram rollup;
* `src/collectors/replication/replica_status.rs` — replica status gauges.

Modelling conventions:

* Rust `i64` values are represented as `Int`.  Where the Rust code can
  overflow, arithmetic is performed through `wrap64` (two's-complement
  wrap-around, the semantics of a release build); `i64::saturating_sub` is
  `satSub64`.  Prometheus `IntCounter` values (`u64`, `fetch_add` wrap-around)
  are represented as `Nat` reduced `% u64Mod`.
* Rust `f64` quantities (durations, timestamps, query times) are represented
  as `ℚ`; decimal literals are parsed exactly, without binary rounding, and
  the non-finite spellings (`inf`, `nan`) are outside the model.
* Prometheus vector metrics (`IntGaugeVec`, `IntCounterVec`, …) are
  association lists from label tuples to values, in insertion order, which is
  how the `prometheus` crate stores and gathers children.
* `\d` in the version regex is modelled as ASCII digits.
-/

namespace MariadbExporter

/-! ## Machine-integer model -/

/-- `i64::MAX`. -/
def i64Max : Int := 9223372036854775807

/-- `i64::MIN`. -/
def i64Min : Int := -9223372036854775808

/-- `2^64`, the modulus of `u64` arithmetic. -/
def u64Mod : Nat := 18446744073709551616

/-- Two's-complement wrap-around into the `i64` range: the result of Rust
release-mode `i64` arithmetic applied to the mathematical value `x`. -/
def wrap64 (x : Int) : Int := (x + 2 ^ 63) % 2 ^ 64 - 2 ^ 63

/-- `i64::saturating_sub a b` (`src/collectors/default/status.rs` uses it for
the delta-counter subtraction). -/
def satSub64 (a b : Int) : Int :=
  let r := a - b
  if r > i64Max then i64Max else if r < i64Min then i64Min else r

/-! ## String and number parsing helpers

These model the Rust standard-library operations the collectors use:
`char::is_ascii_digit` runs, `str::split_whitespace`, `str::lines`,
`str::contains`, `i64::from_str`, and ASCII upper-casing. -/

/-- Split off the longest leading run of ASCII digits. -/
def takeDigits : List Char → List Char × List Char
  | [] => ([], [])
  | c :: t =>
    if c.isDigit then
      let (ds, r) := takeDigits t
      (c :: ds, r)
    else ([], c :: t)

/-- Numeric value of a digit list (most significant first). -/
def digitsVal (l : List Char) : Nat :=
  l.foldl (fun a c => a * 10 + (c.toNat - '0'.toNat)) 0

/-- `None` unless the list is a non-empty run of ASCII digits; then its value. -/
def digitsToNat (l : List Char) : Option Nat :=
  if l.isEmpty then none
  else if l.all Char.isDigit then some (digitsVal l) else none

/-- Rust `i64::from_str`: optional sign, ASCII digits, error on overflow. -/
def parseI64 (s : String) : Option Int :=
  match s.data with
  | '+' :: t => (digitsToNat t).bind fun n =>
      if (n : Int) ≤ i64Max then some (n : Int) else none
  | '-' :: t => (digitsToNat t).bind fun n =>
      if (n : Int) ≤ 2 ^ 63 then some (-(n : Int)) else none
  | t => (digitsToNat t).bind fun n =>
      if (n : Int) ≤ i64Max then some (n : Int) else none

/-- `str::split_whitespace`: maximal non-whitespace runs, empties dropped. -/
def splitWsAux : List Char → List Char → List (List Char)
  | [], acc => if acc.isEmpty then [] else [acc.reverse]
  | c :: t, acc =>
    if c.isWhitespace then
      if acc.isEmpty then splitWsAux t [] else acc.reverse :: splitWsAux t []
    else splitWsAux t (c :: acc)

/-- `str::split_whitespace` collected into a list of tokens. -/
def splitWs (s : String) : List String :=
  (splitWsAux s.data []).map List.asString

/-- Is `pat` a prefix of `l`? -/
def lPre : List Char → List Char → Bool
  | [], _ => true
  | _ :: _, [] => false
  | p :: ps, c :: cs => p == c && lPre ps cs

/-- Does `pat` occur as a contiguous sublist of the second argument? -/
def lSub (pat : List Char) : List Char → Bool
  | [] => lPre pat []
  | c :: t => lPre pat (c :: t) || lSub pat t

/-- `str::contains` with a literal pattern. -/
def strContains (s pat : String) : Bool := lSub pat.data s.data

/-- `str::starts_with` with a literal pattern. -/
def strStarts (s pfx : String) : Bool := lPre pfx.data s.data

/-- Worker for `str::split` with a literal pattern: non-overlapping,
left-to-right; `fuel` (the input length) only drives structural recursion.
(Only called with non-empty patterns.) -/
def splitOnCore (pat : List Char) : Nat → List Char → List Char → List (List Char)
  | _, [], acc => [acc.reverse]
  | 0, l, acc => [acc.reverse ++ l]
  | fuel + 1, c :: t, acc =>
    if lPre pat (c :: t) then
      acc.reverse :: splitOnCore pat fuel (t.drop (pat.length - 1)) []
    else splitOnCore pat fuel t (c :: acc)

/-- `str::split` with a non-empty literal pattern, collected. -/
def strSplitOn (s pat : String) : List String :=
  (splitOnCore pat.data s.data.length s.data []).map List.asString

/-- Strip one trailing `'\r'`. -/
def stripCR (l : List Char) : List Char :=
  if l.getLast? = some '\r' then l.dropLast else l

/-- `str::lines`: split on `'\n'`, no entry for a trailing newline, a
trailing `'\r'` stripped from each line. -/
def rustLines (s : String) : List String :=
  if s = "" then []
  else
    let parts := splitOnCore ['\n'] s.data.length s.data []
    let parts := if s.data.getLast? = some '\n' then parts.dropLast else parts
    parts.map fun l => (stripCR l).asString

/-- `str::trim`: strip leading and trailing whitespace characters. -/
def rustTrim (s : String) : String :=
  (((s.data.dropWhile Char.isWhitespace).reverse.dropWhile Char.isWhitespace).reverse).asString

/-- `u8::to_ascii_uppercase` on one char: only `'a'..='z'` are mapped. -/
def asciiUpperChar (c : Char) : Char :=
  if 'a' ≤ c && c ≤ 'z' then Char.ofNat (c.toNat - 32) else c

/-- `str::to_ascii_uppercase`. -/
def asciiUpper (s : String) : String :=
  (s.data.map asciiUpperChar).asString

/-! ## Version normalization (`src/collectors/util.rs`)

`normalize_mariadb_version` applies the regex
`^(\d+)(?:\.(\d+))?(?:\.(\d+))?` and turns the captures into a normalized
string and a numeric version.  The regex is embedded directly: an anchored
greedy digit run, then up to two optional `.`-digit-run groups. -/

/-- One optional `(?:\.(\d+))?` group: consumed only when a `'.'` followed by
at least one digit is present. -/
def dotGroup : List Char → Option (List Char) × List Char
  | '.' :: t =>
    match takeDigits t with
    | ([], _) => (none, '.' :: t)
    | (ds, r) => (some ds, r)
  | l => (none, l)

/-- The captures of `^(\d+)(?:\.(\d+))?(?:\.(\d+))?` against `s`, or `none`
when the regex does not match (no leading digit). -/
def capturesVersion (s : String) :
    Option (List Char × (Option (List Char) × Option (List Char))) :=
  match takeDigits s.data with
  | ([], _) => none
  | (g1, r1) =>
    let (g2, r2) := dotGroup r1
    let (g3, _) := dotGroup r2
    some (g1, g2, g3)

/-- `m.as_str().parse::<i64>().unwrap_or(0)` for a digit-run capture: the
value of the digits, or `0` when it overflows `i64`. -/
def capValue (ds : List Char) : Nat :=
  let n := digitsVal ds
  if (n : Int) ≤ i64Max then n else 0

/-- `caps.get(k).map_or(0, |m| m.as_str().parse::<i64>().unwrap_or(0))`. -/
def capValueOpt : Option (List Char) → Nat
  | none => 0
  | some ds => capValue ds

/-- `normalize_mariadb_version` (`src/collectors/util.rs:96-125`): on a regex
match, `("{major}.{minor}.{patch}", major*10000 + minor*100 + patch)` with
the arithmetic performed on `i64` (wrap-around); on no match, `("0.0.0", 0)`. -/
def normalize_mariadb_version (version_string : String) : String × Int :=
  match capturesVersion version_string with
  | none => ("0.0.0", 0)
  | some (g1, g2, g3) =>
    let major := capValue g1
    let minor := capValueOpt g2
    let patch := capValueOpt g3
    (toString major ++ "." ++ toString minor ++ "." ++ toString patch,
     -- each i64 `*`/`+` wraps individually; a single wrap of the whole
     -- expression is the same residue mod 2^64
     wrap64 ((major : Int) * 10000 + (minor : Int) * 100 + (patch : Int)))

/-- The mathematical value `major*10000 + minor*100 + patch` of a capture
triple, as the claim states it (no wrap-around). -/
def versionFormula (g1 : List Char) (g2 g3 : Option (List Char)) : Int :=
  (capValue g1 : Int) * 10000 + (capValueOpt g2 : Int) * 100 + (capValueOpt g3 : Int)

/-! ## Excluded databases (`src/collectors/util.rs:32-40`) -/

/-- `Vec::dedup` tail worker: drop elements equal to the previous kept one. -/
def dedupTail (prev : String) : List String → List String
  | [] => []
  | b :: t => if prev = b then dedupTail prev t else b :: dedupTail b t

/-- `Vec::dedup`: removes *consecutive* repeated elements, keeping the first
of each run. -/
def dedupConsec : List String → List String
  | [] => []
  | a :: t => a :: dedupTail a t

/-- `set_excluded_databases`: trim every entry, drop entries that become
empty, then `Vec::dedup` the result.  Returns the list stored in `EXCLUDED`. -/
def set_excluded_databases (list : List String) : List String :=
  dedupConsec ((list.map rustTrim).filter fun s => s ≠ "")

/-! ## Scrape accounting (`src/collectors/exporter/scraper.rs`)

`ScraperCollector` keeps, per collector label, a duration histogram
(`scrape_duration_seconds`), an error counter (`scrape_errors_total`), a
last-scrape timestamp gauge and a last-scrape success gauge.  We model the
label-slice for one collector; durations and timestamps (`f64`) are `ℚ`. -/

structure ScraperRecord where
  /-- Observations recorded into `scrape_duration_seconds{collector}`. -/
  durationObs : List ℚ
  /-- `scrape_errors_total{collector}` (a float `Counter`, always `inc()`ed
  by 1, so a `Nat` count). -/
  errorsTotal : Nat
  /-- `last_scrape_timestamp_seconds{collector}`. -/
  lastTimestamp : ℚ
  /-- `last_scrape_success{collector}` (set to `1.0` or `0.0`). -/
  lastSuccess : ℚ
  deriving Repr, DecidableEq

/-- `ScraperCollector::record_success` (`scraper.rs:132-149`): observe the
duration, set the timestamp to now, set the success gauge to 1. -/
def record_success (r : ScraperRecord) (duration now : ℚ) : ScraperRecord :=
  { r with
    durationObs := r.durationObs ++ [duration]
    lastTimestamp := now
    lastSuccess := 1 }

/-- `ScraperCollector::record_error` (`scraper.rs:151-168`): increment the
error counter, set the timestamp to now, set the success gauge to 0.
(No duration observation.) -/
def record_error (r : ScraperRecord) (now : ℚ) : ScraperRecord :=
  { r with
    errorsTotal := r.errorsTotal + 1
    lastTimestamp := now
    lastSuccess := 0 }

/-- The `timer.success()` path.  `ScrapeTimer` implements `Drop`
(`scraper.rs:220-225`), and `success(self)` (`scraper.rs:210-213`) consumes
`self` without `mem::forget`, so after its explicit `record_success` the
compiler still runs `Drop::drop`, which calls `record_success` again with the
elapsed time measured at drop.  `d1, t1` are the duration/now of the explicit
call, `d2, t2` those of the drop. -/
def scrapeTimerSuccess (r : ScraperRecord) (d1 t1 d2 t2 : ℚ) : ScraperRecord :=
  record_success (record_success r d1 t1) d2 t2

/-- The `timer.error()` path (`scraper.rs:215-217`): `record_error`, then —
because `error(self)` also consumes a `Drop` type without `mem::forget` —
`Drop::drop` runs and calls `record_success` with the elapsed time. -/
def scrapeTimerError (r : ScraperRecord) (t1 d2 t2 : ℚ) : ScraperRecord :=
  record_success (record_error r t1) d2 t2

/-- A timer released without an explicit outcome: only `Drop::drop` runs,
one `record_success`. -/
def scrapeTimerDrop (r : ScraperRecord) (d t : ℚ) : ScraperRecord :=
  record_success r d t

/-! ## Delta counters (`src/collectors/default/status.rs:707-736`)

`set_counter_from_status` keeps, per status variable, a `last_seen`
`AtomicI64` and a `u64` `IntCounter`. -/

structure CounterState where
  /-- The `last_seen` atomic (starts at 0, `AtomicI64::new(0)`). -/
  lastSeen : Int
  /-- The `IntCounter` value (`u64`). -/
  counter : Nat
  deriving Repr, DecidableEq

/-- `IntCounter::inc_by` guarded by `u64::try_from(v)` as in the source:
a negative argument fails the conversion and the counter is untouched;
otherwise a wrapping `u64` add. -/
def counterIncBy (c : Nat) (v : Int) : Nat :=
  if 0 ≤ v then (c + v.toNat) % u64Mod else c

/-- The core of `set_counter_from_status` once the status value has been
parsed to `v`: swap `last_seen`, then update the counter by the
first-sample / forward-progress / restart rule. -/
def set_counter_step (st : CounterState) (v : Int) : CounterState :=
  let previous := st.lastSeen
  let st1 : CounterState := { st with lastSeen := v }
  if 0 ≤ v then
    if previous ≤ 0 then
      { st1 with counter := counterIncBy 0 v }
    else if previous ≤ v then
      { st1 with counter := counterIncBy st1.counter (satSub64 v previous) }
    else
      { st1 with counter := counterIncBy 0 v }
  else st1

/-- `set_counter_from_status`: look the key up (upper-cased) in the status
map, parse it as `i64` (skip on failure), and apply `set_counter_step`. -/
def set_counter_from_status (status : List (String × String)) (key : String)
    (st : CounterState) : CounterState :=
  match status.lookup (asciiUpper key) with
  | none => st
  | some raw =>
    match parseI64 raw with
    | none => st
    | some v => set_counter_step st v

/-! ## Version metrics (`src/collectors/default/version.rs:109-126`) -/

/-- An `IntGaugeVec` as an insertion-ordered association list from label
tuples to values; `with_label_values(..).set(v)` updates or appends. -/
def vecSet : List (List String × Int) → List String → Int → List (List String × Int)
  | [], labels, v => [(labels, v)]
  | (l, c) :: t, labels, v =>
    if l = labels then (l, v) :: t else (l, c) :: vecSet t labels v

structure VersionMetrics where
  /-- The `mariadb_version_info{version, short_version}` family. -/
  version_info : List (List String × Int)
  /-- The `mariadb_version_num{server}` family. -/
  version_num : List (List String × Int)
  deriving Repr, DecidableEq

/-- `VersionCollector::update_version_metrics`: reset both vectors (drop all
label children), then write the single new label tuple into each. -/
def update_version_metrics (m : VersionMetrics) (full_version short_version
    server_label : String) (version_num : Int) : VersionMetrics :=
  let info_reset : List (List String × Int) := []
  let num_reset : List (List String × Int) := []
  { m with
    version_info := vecSet info_reset [full_version, short_version] 1
    version_num := vecSet num_reset [server_label] version_num }

/-! ## Replica status (`src/collectors/replication/replica_status.rs`) -/

/-- The typed reads the collector performs against one `SHOW SLAVE STATUS`
row: each field is the result of the corresponding `row.try_get(..)` (with
`_u`/`_i`/`_s` the unsigned / signed / string reads of the same column). -/
structure SlaveStatusRow where
  relay_log_space : Option Int
  exec_master_log_pos : Option Int
  seconds_behind_u : Option Nat
  seconds_behind_i : Option Int
  slave_io_running : Option String
  slave_sql_running : Option String
  last_io_errno : Option Int
  last_sql_errno : Option Int
  master_server_id_u : Option Nat
  master_server_id_i : Option Int
  master_server_id_s : Option String
  deriving Repr, DecidableEq

/-- The replica gauges set from the first row. -/
structure ReplicaGauges where
  relay_log_space : Int
  relay_log_pos : Int
  seconds_behind_master : Int
  io_running : Int
  sql_running : Int
  last_io_errno : Int
  last_sql_errno : Int
  master_server_id : Int
  deriving Repr, DecidableEq

/-- `parse_master_server_id_from_values`: unsigned (if it fits `i64`), else
signed, else the text parsed as `i64`. -/
def parse_master_server_id_from_values (unsigned : Option Nat)
    (signed : Option Int) (text : Option String) : Option Int :=
  (((unsigned.bind fun v => if (v : Int) ≤ i64Max then some (v : Int) else none).orElse
      fun _ => signed).orElse
    fun _ => text.bind parseI64)

/-- `Seconds_Behind_Master`: unsigned read (narrowed to `i64`), falling back
to the signed read. -/
def secondsBehindValue (row : SlaveStatusRow) : Option Int :=
  (row.seconds_behind_u.bind fun v =>
    if (v : Int) ≤ i64Max then some (v : Int) else none).orElse
    fun _ => row.seconds_behind_i

/-- The gauge updates of the `if let Some(row) = rows.first()` body
(`replica_status.rs:183-225`): missing numeric columns default to 0,
`Seconds_Behind_Master` NULL maps to -1, and the running flags compare the
column text against `Some("Yes")`. -/
def applySlaveRow (g : ReplicaGauges) (row : SlaveStatusRow) : ReplicaGauges :=
  { g with
    relay_log_space := row.relay_log_space.getD 0
    relay_log_pos := row.exec_master_log_pos.getD 0
    seconds_behind_master := (secondsBehindValue row).getD (-1)
    io_running := if row.slave_io_running = some "Yes" then 1 else 0
    sql_running := if row.slave_sql_running = some "Yes" then 1 else 0
    last_io_errno := row.last_io_errno.getD 0
    last_sql_errno := row.last_sql_errno.getD 0
    master_server_id :=
      (parse_master_server_id_from_values row.master_server_id_u
        row.master_server_id_i row.master_server_id_s).getD 0 }

/-! ## InnoDB status parser (`src/collectors/innodb/status.rs:181-273`) -/

/-- The gauges owned by `StatusParser` (the `semaphore_wait_time_ms` gauge is
registered but never written by `parse`). -/
structure InnoGauges where
  lsn_current : Int
  lsn_flushed : Int
  lsn_checkpoint : Int
  checkpoint_age : Int
  trx_active_transactions : Int
  semaphore_waits : Int
  semaphore_wait_time_ms : Int
  adaptive_hash_searches : Int
  adaptive_hash_searches_btree : Int
  deriving Repr, DecidableEq

/-- The local state of the `parse` scan loop: the two `Option<i64>` locals,
the running active-transaction count, and the gauges written so far. -/
structure InnoScan where
  lsnCurrentSeen : Option Int
  lsnCheckpointSeen : Option Int
  activeTrx : Int
  g : InnoGauges
  deriving Repr, DecidableEq

/-- The first three scanner branches share this shape: `starts_with(pfx)`,
take the last whitespace token, parse it as `i64`; `none` means the branch's
conditions failed and control falls to the next `else if`. -/
def lsnBranch (line : String) (pfx : String) : Option Int :=
  if strStarts line pfx then ((splitWs line).getLast?).bind parseI64 else none

/-- The `OS waits` branch condition: the text after the first `"OS waits"`,
first whitespace token, parsed as `i64`. -/
def osWaitsBranch (line : String) : Option Int :=
  if strContains line "OS waits" then
    (((strSplitOn line "OS waits").get? 1).bind fun w => (splitWs w).head?).bind parseI64
  else none

/-- One iteration of the `for line in status.lines()` loop.  The `else if`
chain is modelled by trying each branch's full condition (including its
`let`-bindings) in order. -/
def lineStep (st : InnoScan) (rawLine : String) : InnoScan :=
  let line := rustTrim rawLine
  match lsnBranch line "Log sequence number" with
  | some lsn => { st with lsnCurrentSeen := some lsn, g := { st.g with lsn_current := lsn } }
  | none =>
  match lsnBranch line "Log flushed up to" with
  | some lsn => { st with g := { st.g with lsn_flushed := lsn } }
  | none =>
  match lsnBranch line "Last checkpoint at" with
  | some lsn =>
    { st with lsnCheckpointSeen := some lsn, g := { st.g with lsn_checkpoint := lsn } }
  | none =>
  if strStarts line "---TRANSACTION" && strContains line "ACTIVE" then
    { st with activeTrx := st.activeTrx + 1 }
  else
  match osWaitsBranch line with
  | some waits => { st with g := { st.g with semaphore_waits := waits } }
  | none =>
  if strContains line "hash searches/s" then
    let parts := strSplitOn line ","
    let st1 :=
      match (parts.head?.bind fun hp => (splitWs hp).head?).bind parseI64 with
      | some searches => { st with g := { st.g with adaptive_hash_searches := searches } }
      | none => st
    match ((parts.get? 1).bind fun bp => (splitWs bp).head?).bind parseI64 with
    | some searches =>
      { st1 with g := { st1.g with adaptive_hash_searches_btree := searches } }
    | none => st1
  else st

/-- The scan loop over all lines, started from gauges `g0`. -/
def innoScanRun (g0 : InnoGauges) (status : String) : InnoScan :=
  (rustLines status).foldl lineStep
    { lsnCurrentSeen := none, lsnCheckpointSeen := none, activeTrx := 0, g := g0 }

/-- `StatusParser::parse` after the loop: write `checkpoint_age` only when
both LSNs were seen (`current - checkpoint` is an `i64` subtraction, hence
`wrap64`), and always write the active-transaction count. -/
def parseCore (g0 : InnoGauges) (status : String) : InnoGauges :=
  let st := innoScanRun g0 status
  let g :=
    match st.lsnCurrentSeen, st.lsnCheckpointSeen with
    | some cur, some chk => { st.g with checkpoint_age := wrap64 (cur - chk) }
    | _, _ => st.g
  { g with trx_active_transactions := st.activeTrx }

/-- `StatusParser::parse` returns `Result<()>`; its body contains no fallible
operation (every numeric parse failure just skips the branch), so the
embedding wraps the total scan in `Except.ok`. -/
def StatusParser.parse (g0 : InnoGauges) (status : String) : Except String InnoGauges :=
  Except.ok (parseCore g0 status)

/-! ## Query-response-time rollup
(`src/collectors/query_response_time/collector.rs:121-192`) -/

/-- The chars `a*10^k + b` style decimal mantissa with an optional exponent
tail: `f64::from_str` on finite plain decimals, evaluated exactly in `ℚ`
(no binary rounding; the `inf`/`nan` spellings are outside the model). -/
def parseExpTail : List Char → Option Int
  | [] => some 0
  | 'e' :: t => parseSignedDigits t
  | 'E' :: t => parseSignedDigits t
  | _ => none
where
  parseSignedDigits : List Char → Option Int
    | '+' :: t => (digitsToNat t).map fun n => (n : Int)
    | '-' :: t => (digitsToNat t).map fun n => -(n : Int)
    | t => (digitsToNat t).map fun n => (n : Int)

/-- The value `ds . fs` of an integer digit run and a fraction digit run. -/
def decMantissa (ds fs : List Char) : ℚ :=
  (digitsVal ds : ℚ) + (digitsVal fs : ℚ) / (10 : ℚ) ^ fs.length

/-- `f64::from_str` restricted to finite decimal literals, exact in `ℚ`:
optional sign, then `digits [. [digits]]` or `. digits`, then an optional
`e`/`E` exponent.  `none` for anything else (e.g. `"TOO LONG"`). -/
def parseDec (s : String) : Option ℚ :=
  let (sign, l) : ℚ × List Char :=
    match s.data with
    | '-' :: t => (-1, t)
    | '+' :: t => (1, t)
    | t => (1, t)
  match takeDigits l with
  | ([], rest) =>
    match rest with
    | '.' :: t =>
      match takeDigits t with
      | ([], _) => none
      | (fs, r) => (parseExpTail r).map fun e => sign * decMantissa [] fs * (10 : ℚ) ^ e
    | _ => none
  | (ds, rest) =>
    match rest with
    | '.' :: t =>
      let (fs, r) := takeDigits t
      (parseExpTail r).map fun e => sign * decMantissa ds fs * (10 : ℚ) ^ e
    | r => (parseExpTail r).map fun e => sign * decMantissa ds [] * (10 : ℚ) ^ e

/-- The six accumulator locals of `QueryResponseTimeCollector::collect`. -/
structure QrtAgg where
  cum01 : Nat
  cum10 : Nat
  cum100 : Nat
  over10s : Nat
  total_count : Nat
  total_sum : ℚ
  deriving Repr, DecidableEq

def qrtAggInit : QrtAgg :=
  { cum01 := 0, cum10 := 0, cum100 := 0, over10s := 0, total_count := 0, total_sum := 0 }

/-- One iteration of the row loop: skip unparseable `TIME` (`continue`), skip
zero `COUNT`, accumulate count and sum, then classify into exactly one
non-overlapping range.  `u64` additions wrap. -/
def qrtStep (a : QrtAgg) (row : String × Nat) : QrtAgg :=
  match parseDec (rustTrim row.1) with
  | none => a
  | some t =>
    if row.2 = 0 then a
    else
      let a := { a with
        total_count := (a.total_count + row.2) % u64Mod
        total_sum := a.total_sum + t * (row.2 : ℚ) }
      if t ≤ 1 / 10 then { a with cum01 := (a.cum01 + row.2) % u64Mod }
      else if t ≤ 1 then { a with cum10 := (a.cum10 + row.2) % u64Mod }
      else if t ≤ 10 then { a with cum100 := (a.cum100 + row.2) % u64Mod }
      else { a with over10s := (a.over10s + row.2) % u64Mod }

/-- The published handles: the `le`-labelled `IntCounterVec` plus the count
and sum counters. -/
structure QrtMetrics where
  bucket : List (String × Nat)
  count : Nat
  sum : ℚ
  deriving Repr, DecidableEq

/-- `IntCounterVec::with_label_values(..).inc_by`: update or append, `u64`
wrap-around. -/
def vecIncBy : List (String × Nat) → String → Nat → List (String × Nat)
  | [], label, v => [(label, v % u64Mod)]
  | (l, c) :: t, label, v =>
    if l = label then (l, (c + v) % u64Mod) :: t else (l, c) :: vecIncBy t label v

/-- The publication tail of `collect`: roll the per-range counts up into
cumulative buckets, then reset every handle and `inc_by` the aggregates. -/
def qrtPublish (m : QrtMetrics) (a : QrtAgg) : QrtMetrics :=
  let cumulative_0_1 := a.cum01
  let cumulative_1_0 := (a.cum10 + cumulative_0_1) % u64Mod
  let cumulative_10_0 := (a.cum100 + cumulative_1_0) % u64Mod
  let cumulative_inf := (cumulative_10_0 + a.over10s) % u64Mod
  let bucket_reset : List (String × Nat) := []
  { m with
    bucket :=
      vecIncBy (vecIncBy (vecIncBy (vecIncBy bucket_reset
        "0.1" cumulative_0_1) "1.0" cumulative_1_0) "10.0" cumulative_10_0)
        "+Inf" cumulative_inf
    count := (0 + a.total_count) % u64Mod
    sum := 0 + a.total_sum }

/-- The pure core of `collect` on the fetched rows. -/
def qrtCollect (m : QrtMetrics) (rows : List (String × Nat)) : QrtMetrics :=
  qrtPublish m (rows.foldl qrtStep qrtAggInit)

/-! ## Observation functions and test fixtures

Small derived functions used to state the claims, and the concrete inputs of
the spec's end-to-end scenarios. -/

/-- A query-response-time row is kept (not skipped) iff its `TIME` parses and
its `COUNT` is non-zero. -/
def qrtKeep (row : String × Nat) : Bool :=
  (parseDec (rustTrim row.1)).isSome && decide (row.2 ≠ 0)

/-- The parsed time of a kept row (0 for skipped rows; unused there). -/
def qrtTime (row : String × Nat) : ℚ :=
  (parseDec (rustTrim row.1)).getD 0

/-- Scenario S3's input rows. -/
def qrtExampleRows : List (String × Nat) :=
  [("0.01", 10), ("0.5", 5), ("5.0", 2), ("30", 1), ("0.05", 3), ("TOO LONG", 4)]

/-- All-zero `InnoGauges` (the state of freshly created `IntGauge`s). -/
def innoZero : InnoGauges :=
  { lsn_current := 0, lsn_flushed := 0, lsn_checkpoint := 0, checkpoint_age := 0
    trx_active_transactions := 0, semaphore_waits := 0, semaphore_wait_time_ms := 0
    adaptive_hash_searches := 0, adaptive_hash_searches_btree := 0 }

/-- The active-transaction line condition of the scanner: after trimming,
the line starts with `---TRANSACTION` and contains `ACTIVE`. -/
def isActiveLine (rawLine : String) : Bool :=
  strStarts (rustTrim rawLine) "---TRANSACTION" && strContains (rustTrim rawLine) "ACTIVE"

/-- Scenario S2's `SHOW ENGINE INNODB STATUS` text. -/
def s2Status : String :=
  "Log sequence number          123456789\n" ++
  "Log flushed up to            123456000\n" ++
  "Last checkpoint at           123450000\n" ++
  "---TRANSACTION 1, ACTIVE 5 sec\n" ++
  "---TRANSACTION 2, ACTIVE 1 sec\n" ++
  "Mutex spin waits 0, rounds 0, OS waits 123\n" ++
  "RW-shared spins 0, rounds 0, OS waits 456\n" ++
  "123456 hash searches/s, 12345 non-hash searches/s\n"

/-- A status text whose checkpoint-age subtraction overflows `i64`:
both LSN lines parse (`parse::<i64>` accepts a sign), and
`9223372036854775807 - (-1) = 2^63` is out of `i64` range. -/
def innoOverflowStatus : String :=
  "Log sequence number 9223372036854775807\nLast checkpoint at -1"

/-- All-zero `ReplicaGauges`. -/
def replicaZero : ReplicaGauges :=
  { relay_log_space := 0, relay_log_pos := 0, seconds_behind_master := 0
    io_running := 0, sql_running := 0, last_io_errno := 0, last_sql_errno := 0
    master_server_id := 0 }

/-- A `SHOW SLAVE STATUS` row whose running columns read `"Running"` and
`"ON"` — values the spec maps to 1. -/
def rowRunningOn : SlaveStatusRow :=
  { relay_log_space := none, exec_master_log_pos := none
    seconds_behind_u := none, seconds_behind_i := none
    slave_io_running := some "Running", slave_sql_running := some "ON"
    last_io_errno := none, last_sql_errno := none
    master_server_id_u := none, master_server_id_i := none
    master_server_id_s := none }

/-! ## Theorems -/

set_option maxRecDepth 10000

/-- C1.  The claim says every scrape timer produces exactly one observation
in `scrape_duration_seconds{collector}` and exactly one terminal
success/failure record.  The code violates this: `ScrapeTimer` implements
`Drop` and `success()`/`error()` consume `self` without `mem::forget`, so
`Drop::drop` runs after them.  `success()` therefore records success twice
(two duration observations); `error()` records the failure and then a
success; only the bare drop path records exactly once. -/
theorem c1_timer_double_record (r : ScraperRecord) (d1 t1 d2 t2 : ℚ) :
    (scrapeTimerSuccess r d1 t1 d2 t2).durationObs = r.durationObs ++ [d1, d2]
    ∧ (scrapeTimerError r t1 d2 t2).durationObs = r.durationObs ++ [d2]
    ∧ (scrapeTimerError r t1 d2 t2).lastSuccess = 1
    ∧ (scrapeTimerDrop r d2 t2).durationObs = r.durationObs ++ [d2] := by
  refine ⟨?_, ?_, rfl, rfl⟩ <;>
    simp [scrapeTimerSuccess, scrapeTimerError, record_success, record_error]

/-- C2.  The claim says that after `error()` the outcome recorded for the
collector is failure: the error counter is incremented, and
`last_scrape_success` ends the scrape at 0.  `record_error` itself does
exactly that, but the full `error()` path then runs `Drop::drop`
(`success(self)`/`error(self)` on a `Drop` type without `mem::forget`),
which overwrites the success gauge with 1 and refreshes the timestamp, so
the scrape ends with `last_scrape_success = 1`, contradicting the claim. -/
theorem c2_error_path_overwritten (r : ScraperRecord) (t1 d2 t2 : ℚ) :
    (record_error r t1).errorsTotal = r.errorsTotal + 1
    ∧ (record_error r t1).lastSuccess = 0
    ∧ (record_error r t1).lastTimestamp = t1
    ∧ (scrapeTimerError r t1 d2 t2).errorsTotal = r.errorsTotal + 1
    ∧ (scrapeTimerError r t1 d2 t2).lastSuccess = 1
    ∧ (scrapeTimerError r t1 d2 t2).lastTimestamp = t2 := by
  exact ⟨rfl, rfl, rfl, rfl, rfl, rfl⟩

/-- C9.  `update_version_metrics` resets both vector families before writing,
so after any call — in particular after the second of two successive calls
with different version strings — each family holds exactly one labeled row,
the tuple of the most recent call. -/
theorem c9_version_labels_reset (m : VersionMetrics)
    (f s l : String) (n : Int) :
    (update_version_metrics m f s l n).version_info = [([f, s], 1)]
    ∧ (update_version_metrics m f s l n).version_num = [([l], n)]
    ∧ (update_version_metrics m f s l n).version_info.length = 1
    ∧ (update_version_metrics m f s l n).version_num.length = 1
    ∧ ∀ f' s' l' : String, ∀ n' : Int,
        (update_version_metrics (update_version_metrics m f' s' l' n') f s l n).version_info
          = [([f, s], 1)] := by
  exact ⟨rfl, rfl, rfl, rfl, fun _ _ _ _ => rfl⟩

/-- C10.  `StatusParser::parse` is total: for every input string and prior
gauge state it returns `Ok` — its body contains no fallible operation, every
numeric parse failure only skips that branch.  In particular an unparseable
LSN line leaves the corresponding gauge unchanged. -/
theorem c10_parse_total (g0 : InnoGauges) (s : String) :
    (StatusParser.parse g0 s).isOk = true
    ∧ StatusParser.parse g0 s = Except.ok (parseCore g0 s)
    ∧ (parseCore g0 "Log sequence number abc").lsn_current = g0.lsn_current
    ∧ (parseCore g0 "Last checkpoint at xyz").lsn_checkpoint = g0.lsn_checkpoint := by
  exact ⟨rfl, rfl, rfl, rfl⟩

/-- C8 counterexample.  The claim says `Slave_IO_Running = "Running"` and
`Slave_SQL_Running = "ON"` set the gauges to 1; the code compares the
column text against exactly `Some("Yes")`, so both gauges are set to 0. -/
theorem c8_running_flags_counterexample :
    (applySlaveRow replicaZero rowRunningOn).io_running = 0
    ∧ (applySlaveRow replicaZero rowRunningOn).sql_running = 0
    ∧ ¬ ((applySlaveRow replicaZero rowRunningOn).io_running = 1
          ∧ (applySlaveRow replicaZero rowRunningOn).sql_running = 1) := by
  refine ⟨rfl, rfl, ?_⟩
  intro h
  exact absurd h.1 (by decide)

/-- C8 amended.  For every `SHOW SLAVE STATUS` row, the
`mariadb_replica_io_running` / `mariadb_replica_sql_running` gauges are set
to 1 exactly when the corresponding column value is the string `"Yes"`, and
to 0 for any other value (including `"ON"` and `"Running"`). -/
theorem c8_running_flags_amended (g : ReplicaGauges) (row : SlaveStatusRow) :
    ((applySlaveRow g row).io_running = 1 ↔ row.slave_io_running = some "Yes")
    ∧ ((applySlaveRow g row).io_running = 0 ↔ ¬ row.slave_io_running = some "Yes")
    ∧ ((applySlaveRow g row).sql_running = 1 ↔ row.slave_sql_running = some "Yes")
    ∧ ((applySlaveRow g row).sql_running = 0 ↔ ¬ row.slave_sql_running = some "Yes") := by
  unfold applySlaveRow
  constructor
  · by_cases h : row.slave_io_running = some "Yes" <;> simp [h]
  constructor
  · by_cases h : row.slave_io_running = some "Yes" <;> simp [h]
  constructor
  · by_cases h : row.slave_sql_running = some "Yes" <;> simp [h]
  · by_cases h : row.slave_sql_running = some "Yes" <;> simp [h]

/-- `Vec::dedup`'s tail worker only ever drops elements. -/
theorem dedupTail_sublist (l : List String) :
    ∀ prev, List.Sublist (dedupTail prev l) l := by
  induction l with
  | nil => intro prev; simp [dedupTail]
  | cons b t ih =>
    intro prev
    by_cases h : prev = b
    · simp only [dedupTail, if_pos h]
      exact (ih prev).cons b
    · simp only [dedupTail, if_neg h]
      exact (ih b).cons₂ b

/-- After `Vec::dedup`, the element before the remaining tail differs from
each of its neighbours. -/
theorem dedupTail_chain (l : List String) :
    ∀ prev, List.Chain' (· ≠ ·) (prev :: dedupTail prev l) := by
  induction l with
  | nil => intro prev; simp [dedupTail]
  | cons b t ih =>
    intro prev
    by_cases h : prev = b
    · simp only [dedupTail, if_pos h]
      exact ih prev
    · simp only [dedupTail, if_neg h]
      exact List.chain'_cons.mpr ⟨h, ih b⟩

/-- C7 counterexample.  The claim says the stored excluded list contains no
two equal entries; `Vec::dedup` only removes *consecutive* duplicates, so
`["a", "b", "a"]` is stored unchanged and contains `"a"` twice. -/
theorem c7_dedup_counterexample :
    set_excluded_databases ["a", "b", "a"] = ["a", "b", "a"]
    ∧ ¬ (set_excluded_databases ["a", "b", "a"]).Nodup := by
  constructor
  · decide
  · intro h
    rw [show set_excluded_databases ["a", "b", "a"] = ["a", "b", "a"] from by decide] at h
    simp at h

/-- C7 amended.  `set_excluded_databases` stores the list with every entry
trimmed, entries that became empty removed and the original order preserved
(the stored list is a sublist of the cleaned list), and *consecutive*
duplicates removed: no two adjacent stored entries are equal, but equal
entries separated by a different name survive.  In particular
`["mysql", "information_schema", "information_schema", "  "]` is stored as
`["mysql", "information_schema"]`. -/
theorem c7_excluded_databases_amended :
    set_excluded_databases ["mysql", "information_schema", "information_schema", "  "]
      = ["mysql", "information_schema"]
    ∧ (∀ l : List String, List.Chain' (· ≠ ·) (set_excluded_databases l))
    ∧ (∀ l : List String,
        List.Sublist (set_excluded_databases l) ((l.map rustTrim).filter fun s => s ≠ ""))
    ∧ (∀ (l : List String) (x : String), x ∈ set_excluded_databases l →
        x ≠ "" ∧ ∃ y ∈ l, x = rustTrim y) := by
  have hsub : ∀ l : List String,
      List.Sublist (set_excluded_databases l) ((l.map rustTrim).filter fun s => s ≠ "") := by
    intro l
    unfold set_excluded_databases
    cases h : (l.map rustTrim).filter fun s => s ≠ "" with
    | nil => simp [dedupConsec]
    | cons a t =>
      simp only [dedupConsec]
      exact (dedupTail_sublist t a).cons₂ a
  refine ⟨by decide, ?_, hsub, ?_⟩
  · intro l
    unfold set_excluded_databases
    cases h : (l.map rustTrim).filter fun s => s ≠ "" with
    | nil => simp [dedupConsec]
    | cons a t =>
      simp only [dedupConsec]
      exact dedupTail_chain t a
  · intro l x hx
    have hmem := (hsub l).subset hx
    rw [List.mem_filter] at hmem
    obtain ⟨hmap, hne⟩ := hmem
    refine ⟨by simpa using hne, ?_⟩
    obtain ⟨y, hy, rfl⟩ := List.mem_map.mp hmap
    exact ⟨y, hy, rfl⟩

/-- C7 witness: the amended theorem applied at the concrete scenario-S5
input, discharging the membership hypothesis at `"mysql"`. -/
theorem c7_excluded_databases_witness :
    "mysql" ∈ set_excluded_databases
        ["mysql", "information_schema", "information_schema", "  "]
    ∧ ("mysql" ≠ ""
        ∧ ∃ y ∈ ["mysql", "information_schema", "information_schema", "  "],
            "mysql" = rustTrim y) :=
  ⟨by decide,
    c7_excluded_databases_amended.2.2.2
      ["mysql", "information_schema", "information_schema", "  "] "mysql" (by decide)⟩

/-- C3.  The delta-counter step: the previous last-seen value is swapped with
the new one unconditionally; a negative observation changes nothing further;
a previous value ≤ 0 resets then increments the counter to the observed
value; forward progress increments by the saturating signed-64-bit
difference; a regression (restart) resets then increments to the observed
value.  The observed sequence `[100, 150, 200, 50, 75]` yields the counter
trajectory `[100, 150, 200, 50, 75]`, and the status-map layer upper-cases
the key and parses the raw value. -/
theorem c3_delta_counter :
    (∀ (st : CounterState) (v : Int), (set_counter_step st v).lastSeen = v)
    ∧ (∀ (st : CounterState) (v : Int), v < 0 →
        (set_counter_step st v).counter = st.counter)
    ∧ (∀ (st : CounterState) (v : Int), 0 ≤ v → v ≤ i64Max → st.lastSeen ≤ 0 →
        (set_counter_step st v).counter = v.toNat)
    ∧ (∀ (st : CounterState) (v : Int), 0 ≤ v → 0 < st.lastSeen → st.lastSeen ≤ v →
        (set_counter_step st v).counter
          = (st.counter + (satSub64 v st.lastSeen).toNat) % u64Mod)
    ∧ (∀ (st : CounterState) (v : Int), 0 ≤ v → v ≤ i64Max → 0 < st.lastSeen →
        v < st.lastSeen → (set_counter_step st v).counter = v.toNat)
    ∧ (([100] : List Int).foldl set_counter_step ⟨0, 0⟩).counter = 100
    ∧ (([100, 150] : List Int).foldl set_counter_step ⟨0, 0⟩).counter = 150
    ∧ (([100, 150, 200] : List Int).foldl set_counter_step ⟨0, 0⟩).counter = 200
    ∧ (([100, 150, 200, 50] : List Int).foldl set_counter_step ⟨0, 0⟩).counter = 50
    ∧ (([100, 150, 200, 50, 75] : List Int).foldl set_counter_step ⟨0, 0⟩).counter = 75
    ∧ set_counter_from_status [("QUESTIONS", "100")] "Questions" ⟨0, 0⟩ = ⟨100, 100⟩ := by
  refine ⟨?_, ?_, ?_, ?_, ?_, by decide, by decide, by decide, by decide, by decide, by decide⟩
  · intro st v
    dsimp only [set_counter_step]
    split_ifs <;> rfl
  · intro st v hv
    dsimp only [set_counter_step]
    rw [if_neg (by omega)]
  · intro st v hv hmax hprev
    dsimp only [set_counter_step]
    rw [if_pos hv, if_pos hprev]
    show counterIncBy 0 v = v.toNat
    dsimp only [counterIncBy]
    rw [if_pos hv, Nat.zero_add, Nat.mod_eq_of_lt]
    simp only [u64Mod]
    simp only [i64Max] at hmax
    omega
  · intro st v hv hpos hle
    have h0 : 0 ≤ satSub64 v st.lastSeen := by
      dsimp only [satSub64]
      simp only [i64Max, i64Min]
      split_ifs <;> omega
    dsimp only [set_counter_step]
    rw [if_pos hv, if_neg (by omega), if_pos hle]
    show counterIncBy st.counter (satSub64 v st.lastSeen) = _
    dsimp only [counterIncBy]
    rw [if_pos h0]
  · intro st v hv hmax hpos hlt
    dsimp only [set_counter_step]
    rw [if_pos hv, if_neg (by omega), if_neg (by omega)]
    show counterIncBy 0 v = v.toNat
    dsimp only [counterIncBy]
    rw [if_pos hv, Nat.zero_add, Nat.mod_eq_of_lt]
    simp only [u64Mod]
    simp only [i64Max] at hmax
    omega

/-- C3 witness: the restart branch of the step applied at the concrete state
`(last_seen, counter) = (200, 200)` with observation 50, as in step 4 of the
scenario-S6 trajectory. -/
theorem c3_delta_counter_witness :
    (0 : Int) ≤ 50 ∧ (50 : Int) ≤ i64Max
    ∧ (0 : Int) < (⟨200, 200⟩ : CounterState).lastSeen
    ∧ (50 : Int) < (⟨200, 200⟩ : CounterState).lastSeen
    ∧ (set_counter_step ⟨200, 200⟩ 50).counter = (50 : Int).toNat :=
  ⟨by decide, by decide, by decide, by decide,
    c3_delta_counter.2.2.2.2.1 ⟨200, 200⟩ 50 (by decide) (by decide) (by decide) (by decide)⟩

/-- `wrap64` is the identity on values in `i64` range. -/
theorem wrap64_eq_of_bounds {x : Int} (h1 : -(2 ^ 63) ≤ x) (h2 : x < 2 ^ 63) :
    wrap64 x = x := by
  unfold wrap64
  rw [Int.emod_eq_of_lt (by omega) (by omega)]
  omega

/-- C4 counterexample.  The claim's equation `num = major*10000 + minor*100 +
patch` fails when the product overflows `i64`: for the 18-digit input
`"922337203685477580"` the capture parses as an in-range `i64`, but
`major * 10000 = 9223372036854775800000` is out of range and the wrapping
multiplication yields `-8000`. -/
theorem c4_version_num_overflow_counterexample :
    normalize_mariadb_version "922337203685477580" = ("922337203685477580.0.0", -8000)
    ∧ capturesVersion "922337203685477580" = some ("922337203685477580".data, (none, none))
    ∧ versionFormula "922337203685477580".data none none = 9223372036854775800000
    ∧ (normalize_mariadb_version "922337203685477580").2
        ≠ versionFormula "922337203685477580".data none none := by
  exact ⟨by decide, by decide, by decide, by decide⟩

/-- C4 amended.  `normalize_mariadb_version` applies the capture regex; on a
match it returns `"{major}.{minor}.{patch}"` with missing minor/patch
defaulting to 0 (an overflowing capture also parses to 0) and
`num = major*10000 + minor*100 + patch` computed in wrapping signed 64-bit
arithmetic — equal to the mathematical value whenever that fits in `i64`; on
no match it returns `("0.0.0", 0)`.  The four scenario-S1 examples hold. -/
theorem c4_version_normalization_amended :
    normalize_mariadb_version "10.5.12-MariaDB" = ("10.5.12", 100512)
    ∧ normalize_mariadb_version "11.4" = ("11.4.0", 110400)
    ∧ normalize_mariadb_version "12" = ("12.0.0", 120000)
    ∧ normalize_mariadb_version "garbage" = ("0.0.0", 0)
    ∧ (∀ s : String, capturesVersion s = none →
        normalize_mariadb_version s = ("0.0.0", 0))
    ∧ (∀ (s : String) (g1 : List Char) (g2 g3 : Option (List Char)),
        capturesVersion s = some (g1, (g2, g3)) →
        normalize_mariadb_version s
          = (toString (capValue g1) ++ "." ++ toString (capValueOpt g2) ++ "."
              ++ toString (capValueOpt g3),
            wrap64 (versionFormula g1 g2 g3))
        ∧ (versionFormula g1 g2 g3 ≤ i64Max →
            (normalize_mariadb_version s).2 = versionFormula g1 g2 g3)) := by
  refine ⟨by decide, by decide, by decide, by decide, ?_, ?_⟩
  · intro s h
    unfold normalize_mariadb_version
    rw [h]
  · intro s g1 g2 g3 h
    have hmain : normalize_mariadb_version s
        = (toString (capValue g1) ++ "." ++ toString (capValueOpt g2) ++ "."
            ++ toString (capValueOpt g3),
          wrap64 (versionFormula g1 g2 g3)) := by
      unfold normalize_mariadb_version
      rw [h]
      rfl
    refine ⟨hmain, fun hle => ?_⟩
    rw [hmain]
    have h0 : 0 ≤ versionFormula g1 g2 g3 := by
      unfold versionFormula
      positivity
    apply wrap64_eq_of_bounds
    · omega
    · unfold i64Max at hle
      omega

/-- C4 witness: the amended match clause applied at the concrete
`"10.5.12-MariaDB"`, whose formula value is in `i64` range. -/
theorem c4_version_normalization_witness :
    capturesVersion "10.5.12-MariaDB" = some (['1', '0'], (some ['5'], some ['1', '2']))
    ∧ versionFormula ['1', '0'] (some ['5']) (some ['1', '2']) ≤ i64Max
    ∧ (normalize_mariadb_version "10.5.12-MariaDB").2
        = versionFormula ['1', '0'] (some ['5']) (some ['1', '2']) :=
  ⟨by decide, by decide,
    (c4_version_normalization_amended.2.2.2.2.2 "10.5.12-MariaDB"
      ['1', '0'] (some ['5']) (some ['1', '2']) (by decide)).2 (by decide)⟩

/-- Two patterns with different head characters cannot both be prefixes. -/
theorem lPre_head_ne {p q : Char} (ps qs l : List Char) (hne : p ≠ q)
    (h : lPre (p :: ps) l = true) : lPre (q :: qs) l = false := by
  cases l with
  | nil => simp [lPre] at h
  | cons c t =>
    simp only [lPre, Bool.and_eq_true, beq_iff_eq] at h
    simp only [lPre, Bool.and_eq_false_iff]
    left
    simp only [beq_eq_false_iff_ne, ne_eq]
    exact fun hqc => hne (h.1.trans hqc.symm)

/-- An LSN branch only fires on a line with the branch's prefix. -/
theorem lsnBranch_some_starts {line pfx : String} {x : Int}
    (h : lsnBranch line pfx = some x) : strStarts line pfx = true := by
  unfold lsnBranch at h
  by_cases hs : strStarts line pfx = true
  · exact hs
  · rw [if_neg hs] at h
    exact absurd h (by simp)

/-- `lineStep` never writes the `checkpoint_age` gauge. -/
theorem lineStep_checkpoint_age (st : InnoScan) (line : String) :
    (lineStep st line).g.checkpoint_age = st.g.checkpoint_age := by
  unfold lineStep
  dsimp only
  repeat' split
  all_goals rfl

/-- The scan loop never writes the `checkpoint_age` gauge. -/
theorem scan_checkpoint_age (lines : List String) :
    ∀ st : InnoScan, ((lines.foldl lineStep st).g).checkpoint_age = st.g.checkpoint_age := by
  induction lines with
  | nil => intro st; rfl
  | cons l t ih =>
    intro st
    rw [List.foldl_cons, ih, lineStep_checkpoint_age]

/-- `lineStep` increments the active-transaction count exactly on lines
satisfying `isActiveLine`, and leaves it unchanged otherwise (the three LSN
branches fire only on lines starting with `Log`/`Last`, which cannot also
start with `---TRANSACTION`). -/
theorem lineStep_activeTrx (st : InnoScan) (line : String) :
    (lineStep st line).activeTrx = st.activeTrx + (if isActiveLine line then 1 else 0) := by
  unfold lineStep isActiveLine
  dsimp only
  split
  · next lsn heq =>
    have h1 := lsnBranch_some_starts heq
    have h2 : strStarts (rustTrim line) "---TRANSACTION" = false := by
      unfold strStarts at h1 ⊢
      exact lPre_head_ne _ _ _ (by decide) h1
    simp [h2]
  · split
    · next lsn heq =>
      have h1 := lsnBranch_some_starts heq
      have h2 : strStarts (rustTrim line) "---TRANSACTION" = false := by
        unfold strStarts at h1 ⊢
        exact lPre_head_ne _ _ _ (by decide) h1
      simp [h2]
    · split
      · next lsn heq =>
        have h1 := lsnBranch_some_starts heq
        have h2 : strStarts (rustTrim line) "---TRANSACTION" = false := by
          unfold strStarts at h1 ⊢
          exact lPre_head_ne _ _ _ (by decide) h1
        simp [h2]
      · split
        · next h => simp [h]
        · next h =>
          repeat' split
          all_goals simp

/-- The scan loop counts exactly the `isActiveLine` lines. -/
theorem scan_activeTrx (lines : List String) :
    ∀ st : InnoScan,
      (lines.foldl lineStep st).activeTrx
        = st.activeTrx + ((lines.filter isActiveLine).length : Int) := by
  induction lines with
  | nil => intro st; simp
  | cons l t ih =>
    intro st
    rw [List.foldl_cons, ih, lineStep_activeTrx]
    by_cases h : isActiveLine l
    · simp [List.filter_cons, h]
      ring
    · simp [List.filter_cons, h]

/-- C6 counterexample.  The claim's equation `checkpoint_age = lsn_current −
lsn_checkpoint` fails when the `i64` subtraction overflows: with
`lsn_current = i64::MAX` and `lsn_checkpoint = -1` (both lines parse, since
`parse::<i64>` accepts a sign), the difference is `2^63`, out of `i64`
range, and the wrapping subtraction stores `i64::MIN` instead. -/
theorem c6_checkpoint_age_overflow_counterexample :
    parseCore innoZero innoOverflowStatus
      = { lsn_current := 9223372036854775807, lsn_flushed := 0, lsn_checkpoint := -1
          checkpoint_age := -9223372036854775808, trx_active_transactions := 0
          semaphore_waits := 0, semaphore_wait_time_ms := 0
          adaptive_hash_searches := 0, adaptive_hash_searches_btree := 0 }
    ∧ (9223372036854775807 : Int) - (-1) = 9223372036854775808
    ∧ (parseCore innoZero innoOverflowStatus).checkpoint_age
        ≠ (parseCore innoZero innoOverflowStatus).lsn_current
            - (parseCore innoZero innoOverflowStatus).lsn_checkpoint := by
  exact ⟨by decide, by decide, by decide⟩

/-- C6 amended.  The line scanner sets the three LSN gauges from their lines,
counts as active each line that (after trimming) starts with
`---TRANSACTION` and contains `ACTIVE`, takes the integer after `OS waits`
(last parseable occurrence wins) and splits `hash searches/s` lines on
commas for the two adaptive-hash gauges; after the scan, `checkpoint_age` is
written only when both LSNs were seen, with the *wrapping* signed-64-bit
difference `lsn_current − lsn_checkpoint` (equal to the mathematical
difference whenever it fits in `i64`), and `active_transactions` is always
written (the count of active lines, 0 if none).  On the scenario-S2 input
this yields exactly the claimed gauge values. -/
theorem c6_innodb_parser_amended :
    parseCore innoZero s2Status
      = { lsn_current := 123456789, lsn_flushed := 123456000, lsn_checkpoint := 123450000
          checkpoint_age := 6789, trx_active_transactions := 2, semaphore_waits := 456
          semaphore_wait_time_ms := 0, adaptive_hash_searches := 123456
          adaptive_hash_searches_btree := 12345 }
    ∧ (∀ (g0 : InnoGauges) (s : String) (cur chk : Int),
        (innoScanRun g0 s).lsnCurrentSeen = some cur →
        (innoScanRun g0 s).lsnCheckpointSeen = some chk →
        (parseCore g0 s).checkpoint_age = wrap64 (cur - chk)
        ∧ (i64Min ≤ cur - chk → cur - chk ≤ i64Max →
            (parseCore g0 s).checkpoint_age = cur - chk))
    ∧ (∀ (g0 : InnoGauges) (s : String),
        ((innoScanRun g0 s).lsnCurrentSeen = none
          ∨ (innoScanRun g0 s).lsnCheckpointSeen = none) →
        (parseCore g0 s).checkpoint_age = g0.checkpoint_age)
    ∧ (∀ (g0 : InnoGauges) (s : String),
        (parseCore g0 s).trx_active_transactions
          = (((rustLines s).filter isActiveLine).length : Int)) := by
  refine ⟨by decide, ?_, ?_, ?_⟩
  · intro g0 s cur chk hcur hchk
    have hmain : (parseCore g0 s).checkpoint_age = wrap64 (cur - chk) := by
      unfold parseCore
      dsimp only
      rw [hcur, hchk]
    refine ⟨hmain, fun hlo hhi => ?_⟩
    rw [hmain]
    apply wrap64_eq_of_bounds
    · simp only [i64Min] at hlo
      omega
    · simp only [i64Max] at hhi
      omega
  · intro g0 s h
    have hpres : ((innoScanRun g0 s).g).checkpoint_age = g0.checkpoint_age := by
      unfold innoScanRun
      rw [scan_checkpoint_age]
    rcases h with h | h
    · unfold parseCore
      dsimp only
      rw [h]
      exact hpres
    · unfold parseCore
      dsimp only
      rw [h]
      cases hcur : (innoScanRun g0 s).lsnCurrentSeen <;> exact hpres
  · intro g0 s
    have htrx : (innoScanRun g0 s).activeTrx
        = (((rustLines s).filter isActiveLine).length : Int) := by
      unfold innoScanRun
      rw [scan_activeTrx]
      simp
    unfold parseCore
    dsimp only
    exact htrx

/-- C6 witness: the checkpoint-age clause applied at the concrete S2 status
text, discharging the both-LSNs-seen and in-range hypotheses there. -/
theorem c6_innodb_parser_witness :
    (innoScanRun innoZero s2Status).lsnCurrentSeen = some 123456789
    ∧ (innoScanRun innoZero s2Status).lsnCheckpointSeen = some 123450000
    ∧ (parseCore innoZero s2Status).checkpoint_age = 123456789 - 123450000 :=
  ⟨by decide, by decide,
    (c6_innodb_parser_amended.2.1 innoZero s2Status 123456789 123450000
      (by decide) (by decide)).2 (by decide) (by decide)⟩

/-- A row that is not kept (unparseable `TIME` or zero `COUNT`) leaves the
accumulators untouched. -/
theorem qrtStep_skip (a : QrtAgg) (r : String × Nat) (h : qrtKeep r = false) :
    qrtStep a r = a := by
  cases hp : parseDec (rustTrim r.1) with
  | none =>
    unfold qrtStep
    rw [hp]
  | some t =>
    have hz : r.2 = 0 := by
      unfold qrtKeep at h
      rw [hp] at h
      simpa using h
    unfold qrtStep
    rw [hp]
    dsimp only
    rw [if_pos hz]

/-- Folding the row loop accumulates `COUNT` into `total_count` (wrapping
`u64`) and `TIME * COUNT` into `total_sum`, over exactly the kept rows. -/
theorem qrtFold_totals (rows : List (String × Nat)) :
    ∀ a : QrtAgg, a.total_count < u64Mod →
      (rows.foldl qrtStep a).total_count
          = (a.total_count + ((rows.filter qrtKeep).map fun r => r.2).sum) % u64Mod
      ∧ (rows.foldl qrtStep a).total_sum
          = a.total_sum + ((rows.filter qrtKeep).map fun r => qrtTime r * (r.2 : ℚ)).sum := by
  induction rows with
  | nil =>
    intro a ha
    constructor
    · simp [Nat.mod_eq_of_lt ha]
    · simp
  | cons r t ih =>
    intro a ha
    rw [List.foldl_cons]
    by_cases hk : qrtKeep r = true
    · obtain ⟨tq, hp⟩ : ∃ tq, parseDec (rustTrim r.1) = some tq := by
        unfold qrtKeep at hk
        rcases h' : parseDec (rustTrim r.1) with _ | tq
        · rw [h'] at hk
          simp at hk
        · exact ⟨tq, rfl⟩
      have hz : ¬ r.2 = 0 := by
        unfold qrtKeep at hk
        rw [hp] at hk
        simpa using hk
      have h1 : (qrtStep a r).total_count = (a.total_count + r.2) % u64Mod := by
        unfold qrtStep
        rw [hp]
        dsimp only
        rw [if_neg hz]
        split_ifs <;> rfl
      have h2 : (qrtStep a r).total_sum = a.total_sum + tq * (r.2 : ℚ) := by
        unfold qrtStep
        rw [hp]
        dsimp only
        rw [if_neg hz]
        split_ifs <;> rfl
      have hlt : (qrtStep a r).total_count < u64Mod := by
        rw [h1]
        exact Nat.mod_lt _ (by decide)
      obtain ⟨ih1, ih2⟩ := ih (qrtStep a r) hlt
      constructor
      · rw [ih1, h1, List.filter_cons_of_pos hk]
        simp only [List.map_cons, List.sum_cons, u64Mod]
        omega
      · rw [ih2, h2, List.filter_cons_of_pos hk]
        simp only [List.map_cons, List.sum_cons]
        have ht : qrtTime r = tq := by
          unfold qrtTime
          rw [hp]
          rfl
        rw [ht]
        ring
    · have hk' : qrtKeep r = false := by simpa using hk
      rw [qrtStep_skip a r hk', List.filter_cons_of_neg (by simp [hk'])]
      exact ih a ha

/-- C5.  The query-response-time rollup: rows with unparseable `TIME` or zero
`COUNT` are skipped; `COUNT` sums into `total_count` and `TIME * COUNT` into
`total_sum` over the kept rows; each kept row lands in exactly one of the
ranges `≤0.1`, `(0.1,1]`, `(1,10]`, `>10`; the published handles are rebuilt
from scratch (reset-then-inc_by) as cumulative `le` buckets
`{0.1, 1.0, 10.0, +Inf}` plus count and sum.  The scenario-S3 rows yield
buckets `13 / 18 / 20 / 21`, `count = 21`, `sum = 42.75`, whatever the
previously published values were. -/
theorem c5_qrt_rollup :
    (∀ m : QrtMetrics, qrtCollect m qrtExampleRows
        = { bucket := [("0.1", 13), ("1.0", 18), ("10.0", 20), ("+Inf", 21)]
            count := 21, sum := 171 / 4 })
    ∧ (∀ rows : List (String × Nat),
        (rows.foldl qrtStep qrtAggInit).total_count
          = (((rows.filter qrtKeep).map fun r => r.2).sum) % u64Mod
        ∧ (rows.foldl qrtStep qrtAggInit).total_sum
          = ((rows.filter qrtKeep).map fun r => qrtTime r * (r.2 : ℚ)).sum)
    ∧ (∀ (a : QrtAgg) (r : String × Nat), qrtKeep r = false → qrtStep a r = a)
    ∧ (∀ (a : QrtAgg) (r : String × Nat) (t : ℚ),
        parseDec (rustTrim r.1) = some t → ¬ r.2 = 0 →
        (t ≤ 1 / 10 → qrtStep a r = { a with
            total_count := (a.total_count + r.2) % u64Mod
            total_sum := a.total_sum + t * (r.2 : ℚ)
            cum01 := (a.cum01 + r.2) % u64Mod })
        ∧ (¬ t ≤ 1 / 10 → t ≤ 1 → qrtStep a r = { a with
            total_count := (a.total_count + r.2) % u64Mod
            total_sum := a.total_sum + t * (r.2 : ℚ)
            cum10 := (a.cum10 + r.2) % u64Mod })
        ∧ (¬ t ≤ 1 / 10 → ¬ t ≤ 1 → t ≤ 10 → qrtStep a r = { a with
            total_count := (a.total_count + r.2) % u64Mod
            total_sum := a.total_sum + t * (r.2 : ℚ)
            cum100 := (a.cum100 + r.2) % u64Mod })
        ∧ (¬ t ≤ 1 / 10 → ¬ t ≤ 1 → ¬ t ≤ 10 → qrtStep a r = { a with
            total_count := (a.total_count + r.2) % u64Mod
            total_sum := a.total_sum + t * (r.2 : ℚ)
            over10s := (a.over10s + r.2) % u64Mod }))
    ∧ (∀ (m : QrtMetrics) (a : QrtAgg), qrtPublish m a
        = { bucket := [("0.1", a.cum01 % u64Mod), ("1.0", (a.cum10 + a.cum01) % u64Mod),
                       ("10.0", (a.cum100 + a.cum10 + a.cum01) % u64Mod),
                       ("+Inf", (a.cum100 + a.cum10 + a.cum01 + a.over10s) % u64Mod)]
            count := a.total_count % u64Mod, sum := a.total_sum }) := by
  refine ⟨?_, ?_, qrtStep_skip, ?_, ?_⟩
  · intro m
    with_unfolding_all rfl
  · intro rows
    have h := qrtFold_totals rows qrtAggInit (by decide)
    simpa [qrtAggInit] using h
  · intro a r t hp hz
    refine ⟨?_, ?_, ?_, ?_⟩
    · intro h1
      unfold qrtStep
      rw [hp]
      dsimp only
      rw [if_neg hz]
      rw [if_pos h1]
    · intro h1 h2
      unfold qrtStep
      rw [hp]
      dsimp only
      rw [if_neg hz]
      rw [if_neg h1, if_pos h2]
    · intro h1 h2 h3
      unfold qrtStep
      rw [hp]
      dsimp only
      rw [if_neg hz]
      rw [if_neg h1, if_neg h2, if_pos h3]
    · intro h1 h2 h3
      unfold qrtStep
      rw [hp]
      dsimp only
      rw [if_neg hz]
      rw [if_neg h1, if_neg h2, if_neg h3]
  · intro m a
    simp +decide [qrtPublish, vecIncBy, u64Mod, Prod.mk.injEq]
    omega

/-- C5 witness: the `(0.1, 1]` classification branch applied at the concrete
row `("0.5", 5)` from scenario S3, discharging the parse, non-zero-count and
range hypotheses there. -/
theorem c5_qrt_rollup_witness :
    parseDec (rustTrim "0.5") = some ((1 : ℚ) / 2) ∧ ¬ (5 : Nat) = 0
    ∧ qrtStep qrtAggInit ("0.5", 5) = { qrtAggInit with
        total_count := (qrtAggInit.total_count + 5) % u64Mod
        total_sum := qrtAggInit.total_sum + ((1 : ℚ) / 2) * ((5 : Nat) : ℚ)
        cum10 := (qrtAggInit.cum10 + 5) % u64Mod } :=
  ⟨by with_unfolding_all decide, by decide,
    (c5_qrt_rollup.2.2.2.1 qrtAggInit ("0.5", 5) ((1 : ℚ) / 2)
        (by with_unfolding_all decide) (by decide)).2.1
      (by with_unfolding_all decide) (by with_unfolding_all decide)⟩

end MariadbExporter
